import Mathlib

-- `Batteries` marks `Rat.add`/`sub`/`mul`/`inv` `@[irreducible]`, which blocks
-- the elaborator (not the kernel) from evaluating concrete scores; restore the
-- default reducibility so that `decide` can evaluate the embedded functions.
set_option allowUnsafeReducibility true
attribute [semireducible] Rat.add Rat.sub Rat.mul Rat.inv

/-!
# Verification of the SQL answer-scoring pipeline

Shallow embedding of `verl/utils/reward_score/NL2SQL_reward.py` and
`verl/utils/reward_score/synsql_reward.py`.

Modelling conventions:
* Python strings are Lean `String`s; scanners work on `List Char`.
* Python's `re` patterns used by the code are simple enough to be rendered as
  dedicated scanners; each scanner's doc comment names the regex it embeds.
  `re.IGNORECASE` is modelled by ASCII case folding (all inputs are ASCII).
  `$` is modelled as end-of-input (the code never passes `re.MULTILINE`, and
  no input below ends in a newline).
* Calls into external collaborators (`sqlparse.parse`/`get_type`,
  `sqlparse.format`, `json.loads`, the DB connection) are oracle parameters:
  the control flow around them is the repository's, the oracle values stand
  for what the library returns.
* Python floats in `synsql_reward.compute_score` are modelled as `ℚ`: every
  value reachable there is a dyadic rational with denominator dividing 32,
  hence exactly representable as a float, so `ℚ` arithmetic is exact and
  `round(x, 1)` is decimal round-half-even (`pyRound1`).
-/

/-- Python's `\s` character class (ASCII part): space, tab, newline, carriage
return, vertical tab, form feed. -/
def isPySpace (c : Char) : Bool :=
  c = ' ' || c = '\t' || c = '\n' || c = '\r' || c = '\x0b' || c = '\x0c'

/-- Python's `\w` character class (ASCII part): letters, digits, underscore. -/
def isWordChar (c : Char) : Bool :=
  ('a' ≤ c && c ≤ 'z') || ('A' ≤ c && c ≤ 'Z') || ('0' ≤ c && c ≤ '9') || c = '_'

/-- Python's `\d` (ASCII part). -/
def isDigitChar (c : Char) : Bool :=
  '0' ≤ c && c ≤ '9'

/-- The 26 lower/upper ASCII letter pairs, used to model `str.upper`/`str.lower`. -/
def letterPairs : List (Char × Char) :=
  [('a', 'A'), ('b', 'B'), ('c', 'C'), ('d', 'D'), ('e', 'E'), ('f', 'F'),
   ('g', 'G'), ('h', 'H'), ('i', 'I'), ('j', 'J'), ('k', 'K'), ('l', 'L'),
   ('m', 'M'), ('n', 'N'), ('o', 'O'), ('p', 'P'), ('q', 'Q'), ('r', 'R'),
   ('s', 'S'), ('t', 'T'), ('u', 'U'), ('v', 'V'), ('w', 'W'), ('x', 'X'),
   ('y', 'Y'), ('z', 'Z')]

/-- ASCII upper-casing of one character (Python `str.upper`, ASCII inputs). -/
def charUpper (c : Char) : Char :=
  match letterPairs.find? (fun p => p.1 == c) with
  | some p => p.2
  | none => c

/-- ASCII lower-casing of one character (Python `str.lower`, ASCII inputs). -/
def charLower (c : Char) : Char :=
  match letterPairs.find? (fun p => p.2 == c) with
  | some p => p.1
  | none => c

/-- Case-sensitive "pattern is a prefix of the input". -/
def leadsWith : List Char → List Char → Bool
  | [], _ => true
  | _ :: _, [] => false
  | p :: ps, c :: cs => p == c && leadsWith ps cs

/-- Case-insensitive "pattern is a prefix of the input" (models matching a
literal under `re.IGNORECASE`). -/
def leadsWithCI : List Char → List Char → Bool
  | [], _ => true
  | _ :: _, [] => false
  | p :: ps, c :: cs => charLower p == charLower c && leadsWithCI ps cs

/-- Python's substring operator `needle in hay` (case-sensitive). -/
def containsSub (needle : List Char) : List Char → Bool
  | [] => leadsWith needle []
  | c :: cs => leadsWith needle (c :: cs) || containsSub needle cs

/-- Case-insensitive substring search (models `re.search` of a plain literal
with `re.IGNORECASE`). -/
def containsSubCI (needle : List Char) : List Char → Bool
  | [] => leadsWithCI needle []
  | c :: cs => leadsWithCI needle (c :: cs) || containsSubCI needle cs

/-- Python `needle in hay` on strings. -/
def pyContains (hay needle : String) : Bool :=
  containsSub needle.data hay.data

/-- Python `str.upper` (ASCII). -/
def pyUpper (s : String) : String :=
  (s.data.map charUpper).asString

/-- Python `str.lower` (ASCII). -/
def pyLower (s : String) : String :=
  (s.data.map charLower).asString

/-- Python `str.strip()`: remove leading and trailing whitespace. -/
def stripChars (s : List Char) : List Char :=
  ((s.dropWhile isPySpace).reverse.dropWhile isPySpace).reverse

/-- Python `str.strip()` on strings. -/
def pyStrip (s : String) : String :=
  (stripChars s.data).asString

/-- Core of Python `str.split()`: processes the input from the right,
returning the completed words of the processed suffix and the word still
being built at its head. -/
def wordsCore : List Char → List (List Char) × List Char
  | [] => ([], [])
  | c :: cs =>
    let p := wordsCore cs
    if isPySpace c then (if p.2.isEmpty then p.1 else p.2 :: p.1, [])
    else (p.1, c :: p.2)

/-- Python `str.split()` (no argument): maximal runs of non-whitespace. -/
def words (s : List Char) : List (List Char) :=
  let p := wordsCore s
  if p.2.isEmpty then p.1 else p.2 :: p.1

/-- `' '.join`, specialised to joining word lists with single spaces. -/
def unwords : List (List Char) → List Char
  | [] => []
  | [w] => w
  | w :: ws => w ++ ' ' :: unwords ws

/-- Python `' '.join(s.split())` — the whitespace collapsing used throughout
both reward modules. -/
def collapseWs (s : String) : String :=
  (unwords (words s.data)).asString

/-- Python `str.split(sep)` with a one-character separator (keeps empties). -/
def splitOnCharGo (sep : Char) : List Char → List Char → List (List Char)
  | acc, [] => [acc.reverse]
  | acc, c :: cs =>
    if c == sep then acc.reverse :: splitOnCharGo sep [] cs
    else splitOnCharGo sep (c :: acc) cs

def splitOnChar (sep : Char) (s : List Char) : List (List Char) :=
  splitOnCharGo sep [] s

/-- Python `str.split(sep)` on strings, one-character separator. -/
def pySplitOn (s : String) (sep : Char) : List String :=
  (splitOnChar sep s.data).map List.asString

/-!
## Regex scanners

Each scanner embeds one concrete pattern from the source. Lazy groups
`(.*?)` are modelled as "shortest prefix whose continuation matches a stop
alternative". One modelling note applies to all `KW\s+(.*?)...` scanners: the
greedy `\s+` after the keyword is taken maximally and never backtracked into,
which differs from `re` only when the captured group would have to begin with
whitespace (no input below exercises that corner).
-/

/-- The lazy-capture tail `(.*?)(?:\s+S₁|…|\s+Sₙ|END)` of the extraction
patterns, scanned with `re.IGNORECASE` (and `re.DOTALL` where the source
passes it; with `$` read as end-of-input the two agree here).
`emptyEndOk` selects the `\s*$` end alternative (it also matches with zero
whitespace), `endStop` selects an end-of-input alternative that needs at
least one preceding whitespace character (`\s+$` or `\s*$` after one char of
whitespace). Returns the captured group. -/
def lazyCapture (stops : List (List Char)) (endStop emptyEndOk : Bool) :
    List Char → Option (List Char)
  | [] => if emptyEndOk then some [] else none
  | c :: cs =>
    if isPySpace c &&
        (stops.any (fun st => leadsWithCI st ((c :: cs).dropWhile isPySpace)) ||
          ((endStop || emptyEndOk) && cs.all isPySpace)) then
      some []
    else
      (lazyCapture stops endStop emptyEndOk cs).map (c :: ·)

/-- `re.search(KW + r'\s+(.*?)(?:stops|end)', s, re.IGNORECASE)`: leftmost
occurrence of the literal `kw` followed by at least one whitespace character
whose tail admits the lazy capture; scanning resumes at the next position on
failure, as `re.search` does. -/
def searchKwCapture (kw : List Char) (stops : List (List Char))
    (endStop emptyEndOk : Bool) : List Char → Option (List Char)
  | [] => none
  | c :: cs =>
    (if leadsWithCI kw (c :: cs) then
      let rest := (c :: cs).drop kw.length
      match rest with
      | r :: _ =>
        if isPySpace r then lazyCapture stops endStop emptyEndOk (rest.dropWhile isPySpace)
        else none
      | [] => none
    else none).orElse (fun _ => searchKwCapture kw stops endStop emptyEndOk cs)

/-- One match of the separator `\s+AND\s+|\s+OR\s+` (case-sensitive, as in
`re.split(r'\s+AND\s+|\s+OR\s+', …)`) anchored at the head of the input;
returns the input after the separator. -/
def sepAndOr (s : List Char) : Option (List Char) :=
  match s with
  | [] => none
  | c :: _ =>
    if isPySpace c then
      let r := s.dropWhile isPySpace
      if leadsWith ['A', 'N', 'D'] r then
        let r2 := r.drop 3
        match r2 with
        | d :: _ => if isPySpace d then some (r2.dropWhile isPySpace) else none
        | [] => none
      else if leadsWith ['O', 'R'] r then
        let r2 := r.drop 2
        match r2 with
        | d :: _ => if isPySpace d then some (r2.dropWhile isPySpace) else none
        | [] => none
      else none
    else none

/-- `re.split(r'\s+AND\s+|\s+OR\s+', s)`: split at each leftmost,
non-overlapping separator match. Fuel is the input length; every step
consumes at least one character, so the fuel never runs out when started at
`s.length`. -/
def splitAndOrGo : Nat → List Char → List Char → List (List Char)
  | _, acc, [] => [acc.reverse]
  | 0, acc, s => [acc.reverse ++ s]
  | Nat.succ n, acc, c :: cs =>
    match sepAndOr (c :: cs) with
    | some rest => acc.reverse :: splitAndOrGo n [] rest
    | none => splitAndOrGo n (c :: acc) cs

def splitAndOr (s : List Char) : List (List Char) :=
  splitAndOrGo s.length [] s

/-- Maximal `[\w]+` run at the head of the input: `(run, rest)`, run may be
empty (callers require nonemptiness). -/
def wordRun (s : List Char) : List Char × List Char :=
  (s.takeWhile isWordChar, s.dropWhile isWordChar)

/-- One match of `(?:FROM|JOIN)\s+([\w]+)` anchored at the head: returns the
captured table name and the rest of the input after the whole match. -/
def fromJoinAt (s : List Char) : Option (List Char × List Char) :=
  let attempt := fun (kw : List Char) =>
    if leadsWithCI kw s then
      let rest := s.drop kw.length
      match rest with
      | r :: _ =>
        if isPySpace r then
          let (w, rest2) := wordRun (rest.dropWhile isPySpace)
          if w.isEmpty then none else some (w, rest2)
        else none
      | [] => none
    else none
  (attempt ['F', 'R', 'O', 'M']).orElse (fun _ => attempt ['J', 'O', 'I', 'N'])

/-- `re.finditer(r'(?:FROM|JOIN)\s+([\w]+)', sql, re.IGNORECASE)`: all
non-overlapping leftmost matches, captured table names in order. -/
def findFromJoinGo : Nat → List Char → List (List Char)
  | _, [] => []
  | 0, _ => []
  | Nat.succ n, c :: cs =>
    match fromJoinAt (c :: cs) with
    | some (w, rest) => w :: findFromJoinGo n rest
    | none => findFromJoinGo n cs

/-- The optional alias tail `(?:\s+(?:AS\s+)?([\w]+))?` anchored at the head:
returns (captured alias, rest after the whole optional group) or `none` when
the greedy optional group matches empty. -/
def aliasTailAt (s : List Char) : Option (List Char × List Char) :=
  match s with
  | [] => none
  | c :: _ =>
    if isPySpace c then
      let r := s.dropWhile isPySpace
      -- greedy `(?:AS\s+)?`: taken when "AS" is followed by whitespace and a
      -- word; otherwise backtracked to empty and `([\w]+)` matches directly.
      if leadsWithCI ['A', 'S'] r then
        let r2 := r.drop 2
        match r2 with
        | d :: _ =>
          if isPySpace d then
            let (w, rest2) := wordRun (r2.dropWhile isPySpace)
            if w.isEmpty then
              let (w0, rest0) := wordRun r
              if w0.isEmpty then none else some (w0, rest0)
            else some (w, rest2)
          else
            let (w0, rest0) := wordRun r
            if w0.isEmpty then none else some (w0, rest0)
        | [] =>
          let (w0, rest0) := wordRun r
          if w0.isEmpty then none else some (w0, rest0)
      else
        let (w0, rest0) := wordRun r
        if w0.isEmpty then none else some (w0, rest0)
    else none

/-- One match of `(?:FROM|JOIN)\s+([\w]+)(?:\s+(?:AS\s+)?([\w]+))?` anchored
at the head: (table, optional alias, rest after match). -/
def fromJoinAliasAt (s : List Char) :
    Option (List Char × Option (List Char) × List Char) :=
  match fromJoinAt s with
  | none => none
  | some (table, rest) =>
    match aliasTailAt rest with
    | some (al, rest2) => some (table, some al, rest2)
    | none => some (table, none, rest)

/-- `re.finditer` over the table/alias pattern of `_extract_tables_with_aliases`. -/
def findFromJoinAliasGo : Nat → List Char → List (List Char × Option (List Char))
  | _, [] => []
  | 0, _ => []
  | Nat.succ n, c :: cs =>
    match fromJoinAliasAt (c :: cs) with
    | some (t, a, rest) => (t, a) :: findFromJoinAliasGo n rest
    | none => findFromJoinAliasGo n cs

/-- One match of `JOIN\s+(\w+)` anchored at the head. -/
def joinWordAt (s : List Char) : Option (List Char × List Char) :=
  if leadsWithCI ['J', 'O', 'I', 'N'] s then
    let rest := s.drop 4
    match rest with
    | r :: _ =>
      if isPySpace r then
        let (w, rest2) := wordRun (rest.dropWhile isPySpace)
        if w.isEmpty then none else some (w, rest2)
      else none
    | [] => none
  else none

/-- `re.findall(r'JOIN\s+(\w+)', sql, re.IGNORECASE)`. -/
def findJoinGo : Nat → List Char → List (List Char)
  | _, [] => []
  | 0, _ => []
  | Nat.succ n, c :: cs =>
    match joinWordAt (c :: cs) with
    | some (w, rest) => w :: findJoinGo n rest
    | none => findJoinGo n cs

/-- One match of `(\w+\.\w+|\w+)(?=\s*[=<>])` anchored at the head: the
captured text and the rest (the lookahead is not consumed). Greedy `\w+` runs
never need backtracking here because a shorter run leaves a word character
where `\s*[=<>]` must match. -/
def condNameAt (s : List Char) : Option (List Char × List Char) :=
  let lookahead := fun (r : List Char) =>
    match r.dropWhile isPySpace with
    | d :: _ => d == '=' || d == '<' || d == '>'
    | [] => false
  let (w1, r1) := wordRun s
  if w1.isEmpty then none
  else
    match r1 with
    | '.' :: r2 =>
      let (w2, r3) := wordRun r2
      if w2.isEmpty then
        if lookahead r1 then some (w1, r1) else none
      else if lookahead r3 then some (w1 ++ '.' :: w2, r3)
      else if lookahead r1 then some (w1, r1)
      else none
    | _ => if lookahead r1 then some (w1, r1) else none

/-- `re.findall(r'(\w+\.\w+|\w+)(?=\s*[=<>])', where_text)`. -/
def findCondNamesGo : Nat → List Char → List (List Char)
  | _, [] => []
  | 0, _ => []
  | Nat.succ n, c :: cs =>
    match condNameAt (c :: cs) with
    | some (w, rest) => w :: findCondNamesGo n rest
    | none => findCondNamesGo n cs

/-- One match of `"field":\s*"([^"]+)"` anchored at the head. -/
def fieldAt (field : List Char) (s : List Char) : Option (List Char) :=
  let pat := '"' :: field ++ ['"', ':']
  if leadsWith pat s then
    let r := (s.drop pat.length).dropWhile isPySpace
    match r with
    | '"' :: r2 =>
      let v := r2.takeWhile (fun c => c != '"')
      if v.isEmpty then none
      else if (r2.drop v.length).isEmpty then none  -- no closing quote
      else some v
    | _ => none
  else none

/-- `re.search(rf'"{field}":\s*"([^"]+)"', response)`: leftmost match's
captured group. -/
def fieldCapture (field : List Char) : List Char → Option (List Char)
  | [] => none
  | c :: cs =>
    match fieldAt field (c :: cs) with
    | some v => some v
    | none => fieldCapture field cs

/-- One match of `LIMIT\s+(\d+)` anchored at the head. -/
def limitAt (s : List Char) : Option (List Char) :=
  if leadsWithCI ['L', 'I', 'M', 'I', 'T'] s then
    let rest := s.drop 5
    match rest with
    | r :: _ =>
      if isPySpace r then
        let d := (rest.dropWhile isPySpace).takeWhile isDigitChar
        if d.isEmpty then none else some d
      else none
    | [] => none
  else none

/-- `re.search(r'LIMIT\s+(\d+)', sql, re.IGNORECASE)`. -/
def searchLimit : List Char → Option (List Char)
  | [] => none
  | c :: cs =>
    match limitAt (c :: cs) with
    | some d => some d
    | none => searchLimit cs

/-- `re.search` of an anchored-attempt predicate: true when the attempt
succeeds at some position. -/
def searchPred (p : List Char → Bool) : List Char → Bool
  | [] => p []
  | c :: cs => p (c :: cs) || searchPred p cs

/-- `JOIN\s+\w+\s+ON` anchored at the head. -/
def joinOnAt (s : List Char) : Bool :=
  if leadsWithCI ['J', 'O', 'I', 'N'] s then
    let rest := s.drop 4
    match rest with
    | r :: _ =>
      if isPySpace r then
        let (w, r2) := wordRun (rest.dropWhile isPySpace)
        if w.isEmpty then false
        else
          match r2 with
          | d :: _ => isPySpace d && leadsWithCI ['O', 'N'] (r2.dropWhile isPySpace)
          | [] => false
      else false
    | [] => false
  else false

/-- `UNION\s+(ALL\s+)?SELECT` anchored at the head (greedy optional group,
with its backtracking-to-empty case). -/
def unionSelectAt (s : List Char) : Bool :=
  if leadsWithCI ['U', 'N', 'I', 'O', 'N'] s then
    let rest := s.drop 5
    match rest with
    | r :: _ =>
      if isPySpace r then
        let r2 := rest.dropWhile isPySpace
        if leadsWithCI ['A', 'L', 'L'] r2 then
          let r3 := r2.drop 3
          match r3 with
          | d :: _ =>
            if isPySpace d then leadsWithCI ['S', 'E', 'L', 'E', 'C', 'T'] (r3.dropWhile isPySpace)
            else leadsWithCI ['S', 'E', 'L', 'E', 'C', 'T'] r2
          | [] => leadsWithCI ['S', 'E', 'L', 'E', 'C', 'T'] r2
        else leadsWithCI ['S', 'E', 'L', 'E', 'C', 'T'] r2
      else false
    | [] => false
  else false

/-- `WITH\s+\w+\s+AS\s*\(` anchored at the head. -/
def withCteAt (s : List Char) : Bool :=
  if leadsWithCI ['W', 'I', 'T', 'H'] s then
    let rest := s.drop 4
    match rest with
    | r :: _ =>
      if isPySpace r then
        let (w, r2) := wordRun (rest.dropWhile isPySpace)
        if w.isEmpty then false
        else
          match r2 with
          | d :: _ =>
            if isPySpace d then
              let r3 := r2.dropWhile isPySpace
              if leadsWithCI ['A', 'S'] r3 then
                match (r3.drop 2).dropWhile isPySpace with
                | '(' :: _ => true
                | _ => false
              else false
            else false
          | [] => false
      else false
    | [] => false
  else false

/-- `CASE WHEN.*?END` anchored at the head (no `re.DOTALL`: the `.*?` part
stays on the current line). -/
def caseWhenAt (s : List Char) : Bool :=
  if leadsWithCI ['C', 'A', 'S', 'E', ' ', 'W', 'H', 'E', 'N'] s then
    containsSubCI ['E', 'N', 'D'] ((s.drop 9).takeWhile (fun c => c != '\n'))
  else false

/-! ## `NL2SQL_reward.py` -/

/-- A database schema: table name to ordered column list, as the Python
`Dict[str, List[str]]`. -/
def Schema := List (String × List String)

/-- `_extract_select_columns` (NL2SQL_reward.py lines 317-322): regex
`SELECT\s+(.*?)\s+FROM`, then split on commas and strip. -/
def extractSelectColumns (sql : String) : List String :=
  match searchKwCapture "SELECT".data ["FROM".data] false false sql.data with
  | none => []
  | some cap => (splitOnChar ',' cap).map (fun p => (stripChars p).asString)

/-- `_extract_tables_with_aliases` (lines 270-282): regex
`(?:FROM|JOIN)\s+([\w]+)(?:\s+(?:AS\s+)?([\w]+))?`; an alias equal to the
table name (case-sensitively) is dropped. -/
def extractTablesWithAliases (sql : String) : List (String × Option String) :=
  (findFromJoinAliasGo sql.data.length sql.data).map (fun p =>
    let t := p.1.asString
    match p.2 with
    | some a =>
      let s := a.asString
      (t, if s == t then none else some s)
    | none => (t, none))

/-- `_extract_conditions` (lines 324-329): regex
`WHERE\s+(.*?)(?:\s+GROUP BY|\s+ORDER BY|\s*$)` with `re.IGNORECASE |
re.DOTALL`, then `re.split(r'\s+AND\s+|\s+OR\s+', …)` and strip. -/
def extractConditions (sql : String) : List String :=
  match searchKwCapture "WHERE".data ["GROUP BY".data, "ORDER BY".data]
      false true sql.data with
  | none => []
  | some cap => (splitAndOr cap).map (fun p => (stripChars p).asString)

/-- `_extract_group_by` (lines 331-336). -/
def extractGroupBy (sql : String) : List String :=
  match searchKwCapture "GROUP BY".data ["HAVING".data, "ORDER BY".data]
      false true sql.data with
  | none => []
  | some cap => (splitOnChar ',' cap).map (fun p => (stripChars p).asString)

/-- `_extract_order_by` (lines 338-343): regex `ORDER BY\s+(.*?)\s*$`. -/
def extractOrderBy (sql : String) : List String :=
  match searchKwCapture "ORDER BY".data [] false true sql.data with
  | none => []
  | some cap => (splitOnChar ',' cap).map (fun p => (stripChars p).asString)

/-- `_extract_having` (lines 284-290). -/
def extractHaving (sql : String) : List String :=
  match searchKwCapture "HAVING".data ["ORDER BY".data, "LIMIT".data]
      false true sql.data with
  | none => []
  | some cap => (splitAndOr cap).map (fun p => (stripChars p).asString)

/-- `_extract_limit` (lines 292-295). -/
def extractLimit (sql : String) : Option String :=
  (searchLimit sql.data).map List.asString

/-- `_contains_complex_features` (lines 297-307). -/
def containsComplexFeatures (sql : String) : Bool :=
  searchPred joinOnAt sql.data ||
  containsSubCI "GROUP BY".data sql.data ||
  containsSubCI "HAVING".data sql.data ||
  searchPred unionSelectAt sql.data ||
  searchPred withCteAt sql.data ||
  searchPred caseWhenAt sql.data

/-- `_extract_tables` (NL2SQL_reward.py lines 309-315): all captures of
`(?:FROM|JOIN)\s+([\w]+)`, collected into a Python `set`. The set is
modelled as a first-occurrence deduplicated list; every property proved
below is invariant under the (unspecified) iteration order of the set. -/
def extractTablesNL (sql : String) : List String :=
  ((findFromJoinGo sql.data.length sql.data).map List.asString).dedup

/-- The table-existence loop shared by both validators: first extracted
table that is not a key of the schema dict (Python `in` on a dict is an
exact, case-sensitive key test). -/
def firstMissingTable (schema : Schema) (tables : List String) : Option String :=
  tables.find? (fun t => (List.lookup t schema).isNone)

/-- `_validate_format` (NL2SQL_reward.py lines 101-108). -/
def validateFormatNL (response : String) : Bool :=
  (pyContains response "<think>" && pyContains response "</think>") &&
  (pyContains response "<answer>" && pyContains response "</answer>") &&
  (pyContains response "```sql" && pyContains response "```")

/-- `_extract_sql` (lines 110-117): text between the first ` ```sql ` marker
and the next ` ``` `, stripped; empty string when a marker is missing
(`ValueError` caught). -/
def findSubIdx (needle : List Char) : List Char → Option Nat
  | [] => if leadsWith needle [] then some 0 else none
  | c :: cs =>
    if leadsWith needle (c :: cs) then some 0
    else (findSubIdx needle cs).map (· + 1)

def extractSqlNL (response : String) : String :=
  match findSubIdx "```sql".data response.data with
  | none => ""
  | some i =>
    let tail := response.data.drop (i + 6)
    match findSubIdx "```".data tail with
    | none => ""
    | some j => (stripChars (tail.take j)).asString

/-- `_validate_sql_execution` (NL2SQL_reward.py lines 119-145). The result
of `sqlparse.parse`/`get_type` is the oracle `types` (one statement kind per
parsed statement). `if schema:` is Python truthiness: an absent or empty
schema skips validation. -/
def validateSqlExecutionNL (types : String → List String) (sql : String)
    (schemaOpt : Option Schema) (dbId complexity : String) : Bool × String :=
  let parsed := types sql
  if parsed.isEmpty || !(parsed.all (· == "SELECT")) then
    (false, "Only SELECT queries are supported")
  else
    match schemaOpt with
    | some schema =>
      if schema.isEmpty then (true, "")
      else
        match firstMissingTable schema (extractTablesNL sql) with
        | some t => (false, "Table " ++ t ++ " not in schema for db_id " ++ dbId)
        | none =>
          if complexity == "Complex" && !(containsComplexFeatures sql) then
            (false, "Missing complex query features for complexity level")
          else (true, "")
    | none => (true, "")

/-- `_fuzzy_sql_match` (lines 238-268): exact whitespace-collapsed equality
for Simple complexity; otherwise component-by-component equality, where each
component is compared with Python `!=` on the extractor's result (lists are
compared in order, options structurally). -/
def fuzzySqlMatch (generated expected complexity : String) : Bool :=
  let genClean := collapseWs generated
  let expClean := collapseWs expected
  if complexity == "Simple" then genClean == expClean
  else
    (extractSelectColumns genClean == extractSelectColumns expClean) &&
    (extractTablesWithAliases genClean == extractTablesWithAliases expClean) &&
    (extractConditions genClean == extractConditions expClean) &&
    (extractGroupBy genClean == extractGroupBy expClean) &&
    (extractOrderBy genClean == extractOrderBy expClean) &&
    (extractHaving genClean == extractHaving expClean) &&
    (extractLimit genClean == extractLimit expClean)

/-- `_structural_sql_match` (lines 211-236). `normalize_sql` delegates to
`sqlparse.format(str(sqlparse.parse(sql)[0]), reindent=True,
keyword_case='upper', identifier_case='lower', strip_comments=True)`, an
external dependency, supplied as the oracle `fmt`. -/
def structuralSqlMatchNL (fmt : String → String)
    (generated expected complexity style : String) : Bool :=
  if style == "Vague" then fuzzySqlMatch (fmt generated) (fmt expected) complexity
  else fmt generated == fmt expected

/-- Python `set(tuple(row) for row in rows)` equality: same members. -/
def pySetEqRows (a b : List (List Int)) : Bool :=
  a.all (b.contains ·) && b.all (a.contains ·)

/-- `_compare_execution_results` (lines 174-209). `genRows`/`expRows` are the
oracle `fetchall` results (`none` models an exception while executing, which
the `except` clause turns into `False`). -/
def compareExecutionResultsNL (genRows expRows : Option (List (List Int)))
    (expectedSql questionStyle : String) : Bool :=
  let orderMatters :=
    pyContains (pyLower expectedSql) "order by" || questionStyle != "Vague"
  match genRows, expRows with
  | some g, some e =>
    if g.length != e.length then false
    else if orderMatters then g == e
    else pySetEqRows g e
  | _, _ => false

/-- Oracle bundle for `NL2SQL_reward.compute_score`'s external collaborators. -/
structure PyEnvNL where
  /-- `json.loads(solution_str).get('cot', '')` when `solution_str` parses as
  a JSON object; `none` models `json.JSONDecodeError` (fallback to the raw
  string). -/
  jsonCot : Option String
  /-- `[stmt.get_type() for stmt in sqlparse.parse(sql)]`. -/
  stmtTypes : String → List String
  /-- whether `extra_info` carries a `db_connection`. -/
  hasDbConn : Bool
  /-- `cursor.execute(sql); cursor.fetchall()` (`none` = raised). -/
  execRows : String → Option (List (List Int))
  /-- `normalize_sql`'s `sqlparse` pipeline. -/
  sqlFormat : String → String

/-- `_validate_sql_result` (lines 147-172). -/
def validateSqlResultNL (env : PyEnvNL) (generated expected complexity style : String) :
    Bool :=
  if env.hasDbConn then
    compareExecutionResultsNL (env.execRows generated) (env.execRows expected)
      expected style
  else
    structuralSqlMatchNL env.sqlFormat generated expected complexity style

/-- `compute_score` (NL2SQL_reward.py lines 15-95). Each early return is the
sum of the `rewards` dict at that point, written out as in the source. -/
def computeScoreNL (env : PyEnvNL) (solutionStr expectedSql dbId complexity style : String)
    (dbSchema : Option Schema) : Int :=
  let actualResponse := env.jsonCot.getD solutionStr
  if !(validateFormatNL actualResponse) then (-1) + 0 + 0
  else
    let sqlQuery := extractSqlNL actualResponse
    if sqlQuery == "" then (-1) + 0 + 0
    else if !(validateSqlExecutionNL env.stmtTypes sqlQuery dbSchema dbId complexity).1 then
      1 + (-2) + 0
    else if !(validateSqlResultNL env sqlQuery expectedSql complexity style) then
      1 + 2 + (-3)
    else 1 + 2 + 3

/-! ## `synsql_reward.py` -/

/-- `_extract_tables` (synsql_reward.py lines 233-240): the FROM clause text
(regex `FROM\s+(.*?)(?:\s+WHERE|\s+GROUP BY|\s+ORDER BY|\s*$)`) split on
commas and stripped, plus all `JOIN\s+(\w+)` captures; collected into a
Python `set`, modelled as a first-occurrence deduplicated list (all proved
properties are invariant under set iteration order). -/
def extractTablesSyn (sql : String) : List String :=
  let fromTables :=
    match searchKwCapture "FROM".data
        ["WHERE".data, "GROUP BY".data, "ORDER BY".data] false true sql.data with
    | none => []
    | some cap => (splitOnChar ',' cap).map (fun p => (stripChars p).asString)
  let joins := (findJoinGo sql.data.length sql.data).map List.asString
  (fromTables ++ joins).dedup

/-- `_extract_columns` (lines 242-253). `none` models the uncaught
`IndexError` from `col.split()[-1]` on an empty piece of the SELECT list
(it is caught by `_validate_sql_execution`'s blanket `except`). -/
def extractColumnsSyn (sql : String) : Option (List String) :=
  let selectCols : Option (List String) :=
    match searchKwCapture "SELECT".data ["FROM".data] false false sql.data with
    | none => some []
    | some cap =>
      let toks := (splitOnChar ',' cap).map (fun p => (words p).getLast?)
      if toks.any Option.isNone then none
      else some (toks.filterMap (fun o => o.map List.asString))
  match selectCols with
  | none => none
  | some sc =>
    let whereCols :=
      match searchKwCapture "WHERE".data ["GROUP BY".data, "ORDER BY".data]
          false true sql.data with
      | none => []
      | some cap => (findCondNamesGo cap.length cap).map List.asString
    some ((sc ++ whereCols).dedup)

/-- Outcome of the qualified-column loop of `_validate_sql_execution`
(synsql_reward.py lines 120-125). `unpackErr` models the `ValueError` from
`table, column = col.split('.')` when the name has more than one dot. -/
inductive ColsCheck where
  | ok : ColsCheck
  | notFound (col : String) : ColsCheck
  | unpackErr : ColsCheck
deriving DecidableEq, Repr

/-- The column loop itself: a qualified reference is checked only when its
qualifier is, literally and case-sensitively, a key of the schema dict;
otherwise it is skipped. -/
def checkColumnsSyn (schema : Schema) : List String → ColsCheck
  | [] => .ok
  | col :: rest =>
    if pyContains col "." then
      match pySplitOn col '.' with
      | [t, c] =>
        match List.lookup t schema with
        | some cols =>
          if !(cols.contains c) then .notFound col else checkColumnsSyn schema rest
        | none => checkColumnsSyn schema rest
      | _ => .unpackErr
    else checkColumnsSyn schema rest

/-- The statement allowlist of synsql `_validate_sql_execution` (line 110). -/
def synsqlAllowedTypes : List String :=
  ["SELECT", "INSERT", "UPDATE", "DELETE", "WITH"]

/-- `_validate_sql_execution` (synsql_reward.py lines 101-134). `types` is
the `sqlparse.parse`/`get_type` oracle; only the first statement's kind is
inspected. Reason strings for caught exceptions are abbreviated `str(e)`
texts; no proof below depends on them. -/
def validateSqlExecutionSyn (types : String → List String) (sql : String)
    (schemaOpt : Option Schema) (dbId complexity : String) : Bool × String :=
  match types sql with
  | [] => (false, "Empty SQL")
  | ty :: _ =>
    if !(synsqlAllowedTypes.contains ty) then
      (false, "Invalid statement type: " ++ ty)
    else
      let schemaFailure : Option (Bool × String) :=
        match schemaOpt with
        | some schema =>
          if schema.isEmpty then none
          else
            match firstMissingTable schema (extractTablesSyn sql) with
            | some t => some (false, "Table " ++ t ++ " not in schema")
            | none =>
              match extractColumnsSyn sql with
              | none => some (false, "list index out of range")
              | some cols =>
                match checkColumnsSyn schema cols with
                | .notFound col => some (false, "Column " ++ col ++ " not found")
                | .unpackErr => some (false, "too many values to unpack")
                | .ok => none
        | none => none
      match schemaFailure with
      | some r => r
      | none =>
        if complexity == "Complex" &&
            !(["JOIN", "GROUP BY", "HAVING"].any (fun f => pyContains (pyUpper sql) f)) then
          (false, "Missing complex features")
        else (true, "")

/-- `_extract_json_field` (lines 168-171). -/
def extractJsonField (response field : String) : Option String :=
  (fieldCapture field.data response.data).map List.asString

/-- `_validate_structure` (lines 142-154): four regex searches, in the
dict's insertion order; no JSON parsing is involved. -/
def validateStructureSyn (response : String) : Bool × String :=
  if (extractJsonField response "question").isNone then
    (false, "Missing question section")
  else if (extractJsonField response "cot").isNone then
    (false, "Missing cot section")
  else if (extractJsonField response "sql").isNone then
    (false, "Missing sql section")
  else if (extractJsonField response "db_id").isNone then
    (false, "Missing db_id section")
  else (true, "")

/-- `_extract_components` (lines 156-166). -/
structure SynComponents where
  dbId : Option String
  question : Option String
  cot : Option String
  sql : Option String
  sqlComplexity : String
  questionStyle : String
deriving DecidableEq, Repr

def extractComponentsSyn (r : String) : SynComponents where
  dbId := extractJsonField r "db_id"
  question := extractJsonField r "question"
  cot := extractJsonField r "cot"
  sql := extractJsonField r "sql"
  sqlComplexity := (extractJsonField r "sql_complexity").getD ""
  questionStyle := (extractJsonField r "question_style").getD ""

/-- `_validate_format` (lines 173-186). `sqlparse.parse` accepts every
string without raising, so the `try` block always falls through; the check
reduces to the four XML tags in the CoT. -/
def validateFormatSyn (comps : SynComponents) : Bool × String :=
  let cot := comps.cot.getD ""
  if !(["<think>", "</think>", "<answer>", "</answer>"].all (fun t => pyContains cot t)) then
    (false, "Missing required XML tags in CoT")
  else (true, "")

/-- Python `set` equality of comma-split component pieces. -/
def pySetEqParts (a b : List (List Char)) : Bool :=
  a.all (b.contains ·) && b.all (a.contains ·)

/-- `_compare_sql_component` (lines 213-222): regex
`{component}\s+(.*?)(?:\s+(?:WHERE|GROUP BY|ORDER BY|$))` on both sides;
both missing compares true, one missing false, otherwise `set` equality of
the comma-split (unstripped) pieces. -/
def compareSqlComponent (gen exp comp : String) : Bool :=
  let stops := ["WHERE".data, "GROUP BY".data, "ORDER BY".data]
  match searchKwCapture comp.data stops true false gen.data,
      searchKwCapture comp.data stops true false exp.data with
  | some gp, some ep => pySetEqParts (splitOnChar ',' gp) (splitOnChar ',' ep)
  | none, none => true
  | _, _ => false

/-- `_validate_sql_result` (synsql_reward.py lines 188-211). `fmt` is the
`sqlparse.format(sql, reindent=True)` oracle; `normalize` collapses its
whitespace. -/
def validateSqlResultSyn (fmt : String → String)
    (generated expected complexity style : String) : Bool :=
  let norm := fun s => collapseWs (fmt s)
  if style == "Imperative" then norm generated == norm expected
  else
    let g := norm generated
    let e := norm expected
    if complexity == "Simple" then g == e
    else
      ["SELECT", "FROM", "WHERE", "GROUP BY", "ORDER BY"].all (fun comp =>
        if pyContains e comp then compareSqlComponent g e comp else true)

/-- `_evaluate_cot` (lines 73-99), on exact rationals. -/
def evaluateCot (cot externalKnowledge generatedSql expectedSql : String)
    (isSqlCorrect : Bool) : ℚ :=
  if cot == "" then 0
  else
    let s1 : ℚ := if pyContains cot "<think>" && pyContains cot "<answer>" then mkRat 1 2 else 0
    let found := (["SELECT", "FROM", "WHERE", "JOIN"].filter (fun c =>
      pyContains (pyUpper generatedSql) c && pyContains (pyLower cot) (pyLower c))).length
    let s2 : ℚ := mkRat 1 2 * mkRat found 4
    let s3 : ℚ :=
      if externalKnowledge != "" &&
          ((pySplitOn externalKnowledge ';').any (fun k => pyContains cot k)) then
        mkRat 1 2
      else 0
    let s4 : ℚ := if !isSqlCorrect && pyContains cot expectedSql then mkRat 1 2 else 0
    min 2 (s1 + s2 + s3 + s4)

/-- Floor of a rational, computationally (`Int./` is E-division and the
denominator is positive, so this is the mathematical floor). -/
def ratFloor (q : ℚ) : ℤ :=
  q.num / (q.den : ℤ)

/-- Round-half-even to an integer, on `ℚ`. -/
def roundHalfEvenQ (x : ℚ) : ℤ :=
  if x - (ratFloor x : ℚ) < mkRat 1 2 then ratFloor x
  else if mkRat 1 2 < x - (ratFloor x : ℚ) then ratFloor x + 1
  else if ratFloor x % 2 = 0 then ratFloor x else ratFloor x + 1

/-- Python `round(x, 1)`. All values this is applied to below are dyadic
rationals, hence exact as floats, so decimal round-half-even is the exact
semantics of CPython's `round`. -/
def pyRound1 (q : ℚ) : ℚ :=
  mkRat (roundHalfEvenQ (10 * q)) 10

/-- Oracle bundle for `synsql_reward.compute_score`'s external collaborators. -/
structure PyEnvSyn where
  /-- `[stmt.get_type() for stmt in sqlparse.parse(sql)]`. -/
  stmtTypes : String → List String
  /-- `sqlparse.format(sql, reindent=True)`. -/
  sqlFormat : String → String

/-- `compute_score` (synsql_reward.py lines 5-71). -/
def computeScoreSyn (env : PyEnvSyn)
    (solutionStr expectedSql dbId complexity style externalKnowledge : String)
    (dbSchema : Option Schema) : ℚ :=
  let structureOk := (validateStructureSyn solutionStr).1
  let structureScore : ℚ := if structureOk then 1 else 0
  if !structureOk then min (structureScore + 0 + 0 + 0 + 0) 1
  else
    let comps := extractComponentsSyn solutionStr
    -- structure_ok guarantees the sql/cot fields matched; the `getD ""`
    -- defaults are never taken on this branch.
    let sql := comps.sql.getD ""
    let cot := comps.cot.getD ""
    let formatOk := (validateFormatSyn comps).1
    let formatScore : ℚ := if formatOk then 1 else 0
    let executionOk := (validateSqlExecutionSyn env.stmtTypes sql dbSchema dbId complexity).1
    let executionScore : ℚ := if executionOk then 3 else 0
    let resultScore : ℚ :=
      if executionOk then
        if validateSqlResultSyn env.sqlFormat sql expectedSql complexity style then 3 else 0
      else 0
    let isSqlCorrect := executionOk && decide (0 < resultScore)
    let cotScore := evaluateCot cot externalKnowledge sql expectedSql isSqlCorrect
    let rawTotal := structureScore + formatScore + executionScore + resultScore + cotScore
    let normalizedTotal := min 10 (rawTotal * mkRat 10 8)
    let n2 := if !executionOk then min normalizedTotal 3 else normalizedTotal
    let n3 := if !formatOk then min n2 1 else n2
    pyRound1 n3

/-! ## Normalization, modelled from the spec (claim C8)

The two `normalize` helpers delegate to `sqlparse.format`, an external
library facility that is not part of this repository. Following spec section
4.3, the formatting pass is modelled token-wise below.
-/

/-- SQL keywords recognised by the modelled formatter. -/
def sqlKeywordsModel : List String :=
  ["SELECT", "FROM", "WHERE", "GROUP", "BY", "HAVING", "ORDER", "LIMIT",
   "JOIN", "INNER", "LEFT", "RIGHT", "CROSS", "OUTER", "ON", "AS", "AND",
   "OR", "NOT", "IN", "EXISTS", "UNION", "ALL", "WITH", "CASE", "WHEN",
   "THEN", "ELSE", "END", "DISTINCT", "NULL", "IS", "LIKE", "BETWEEN",
   "ASC", "DESC", "COUNT", "SUM", "AVG", "MIN", "MAX"]

/-- One token of the modelled formatter: keywords are upper-cased, all other
tokens lower-cased. -/
def normalizeTokenModel (w : List Char) : List Char :=
  if sqlKeywordsModel.any (fun k => k.data == w.map charUpper) then w.map charUpper
  else w.map charLower

/-- Modelled from the spec: `normalize_sql` of `_structural_sql_match`
(NL2SQL_reward.py lines 217-226) calls `sqlparse.format(…, reindent=True,
keyword_case=upper-case, identifier_case=lower-case, strip_comments=True)`,
which is external library code missing from the repository. Per spec section
4.3 (identifiers case-folded, keywords upper-cased, whitespace collapsed) it
is modelled as: split into maximal non-whitespace tokens, upper-case keyword
tokens, lower-case the rest, join with single spaces. -/
def normalizeSqlModelNL (s : String) : String :=
  (unwords ((words s.data).map normalizeTokenModel)).asString

/-- Modelled from the spec: `normalize` of synsql `_validate_sql_result`
(synsql_reward.py lines 190-191) is
`' '.join(sqlparse.format(sql, reindent=True).split())`; the external
`reindent` pass only rearranges whitespace, so composed with the
whitespace split/join the model is whitespace collapsing. -/
def normalizeSqlModelSyn (s : String) : String :=
  (unwords (words s.data)).asString

/-! ## Witness inputs -/

/-- A structured synsql response whose CoT carries only the XML tags. -/
def synSolutionA : String :=
  "\"question\": \"q\", \"cot\": \"<think>a</think><answer>b</answer>\", \"sql\": \"SELECT c1 FROM t\", \"db_id\": \"d\""

/-- Like `synSolutionA` but the CoT also mentions the select and from
keywords; the two differ only in the CoT text. -/
def synSolutionB : String :=
  "\"question\": \"q\", \"cot\": \"<think>select from</think><answer>b</answer>\", \"sql\": \"SELECT c1 FROM t\", \"db_id\": \"d\""

/-- A structured synsql response whose CoT lacks the XML tags and whose SQL
references a table absent from the schema. -/
def synSolutionC : String :=
  "\"question\": \"q\", \"cot\": \"no tags\", \"sql\": \"SELECT a FROM missing\", \"db_id\": \"d\""

/-- Oracle: every statement parses as a single SELECT, formatting is the
identity. -/
def synEnv : PyEnvSyn := { stmtTypes := fun _ => ["SELECT"], sqlFormat := fun s => s }

/-- A string that is not a JSON document but contains all four field
patterns. -/
def c10Response : String :=
  "this page is not a JSON document, but it mentions \"question\": \"q\" and \"cot\": \"c\" and \"sql\": \"SELECT 1\" and \"db_id\": \"d\" in passing"

/-! ## Theorems -/

theorem charUpper_charUpper (c : Char) : charUpper (charUpper c) = charUpper c := by
  cases hf : letterPairs.find? (fun p => p.1 == c) with
  | none =>
    have h1 : charUpper c = c := by unfold charUpper; rw [hf]
    rw [h1]; exact h1
  | some p =>
    have h1 : charUpper c = p.2 := by unfold charUpper; rw [hf]
    have hmem : p ∈ letterPairs := List.mem_of_find?_eq_some hf
    have hall : letterPairs.all (fun q => charUpper q.2 == q.2) = true := by decide
    have h2 := List.all_eq_true.mp hall p hmem
    simp only [beq_iff_eq] at h2
    rw [h1, h2]

theorem charLower_charLower (c : Char) : charLower (charLower c) = charLower c := by
  cases hf : letterPairs.find? (fun p => p.2 == c) with
  | none =>
    have h1 : charLower c = c := by unfold charLower; rw [hf]
    rw [h1]; exact h1
  | some p =>
    have h1 : charLower c = p.1 := by unfold charLower; rw [hf]
    have hmem : p ∈ letterPairs := List.mem_of_find?_eq_some hf
    have hall : letterPairs.all (fun q => charLower q.1 == q.1) = true := by decide
    have h2 := List.all_eq_true.mp hall p hmem
    simp only [beq_iff_eq] at h2
    rw [h1, h2]

theorem charUpper_charLower (c : Char) : charUpper (charLower c) = charUpper c := by
  cases hf : letterPairs.find? (fun p => p.2 == c) with
  | none =>
    have h1 : charLower c = c := by unfold charLower; rw [hf]
    rw [h1]
  | some p =>
    have h1 : charLower c = p.1 := by unfold charLower; rw [hf]
    have hc : p.2 = c := by
      have := List.find?_some hf
      simpa using this
    have hmem : p ∈ letterPairs := List.mem_of_find?_eq_some hf
    have hall : letterPairs.all (fun q => charUpper q.1 == charUpper q.2) = true := by
      decide
    have h2 := List.all_eq_true.mp hall p hmem
    simp only [beq_iff_eq] at h2
    rw [h1, h2, hc]

/-- `charUpper` maps non-letters to themselves and letters to letters; in
particular it never produces a whitespace character from a non-whitespace one. -/
theorem isPySpace_charUpper (c : Char) : isPySpace (charUpper c) = isPySpace c := by
  cases hf : letterPairs.find? (fun p => p.1 == c) with
  | none =>
    have h1 : charUpper c = c := by unfold charUpper; rw [hf]
    rw [h1]
  | some p =>
    have h1 : charUpper c = p.2 := by unfold charUpper; rw [hf]
    have hc : p.1 = c := by
      have := List.find?_some hf
      simpa using this
    have hmem : p ∈ letterPairs := List.mem_of_find?_eq_some hf
    have hall : letterPairs.all
        (fun q => isPySpace q.2 == isPySpace q.1) = true := by decide
    have h2 := List.all_eq_true.mp hall p hmem
    simp only [beq_iff_eq] at h2
    rw [h1, h2, hc]

theorem isPySpace_charLower (c : Char) : isPySpace (charLower c) = isPySpace c := by
  cases hf : letterPairs.find? (fun p => p.2 == c) with
  | none =>
    have h1 : charLower c = c := by unfold charLower; rw [hf]
    rw [h1]
  | some p =>
    have h1 : charLower c = p.1 := by unfold charLower; rw [hf]
    have hc : p.2 = c := by
      have := List.find?_some hf
      simpa using this
    have hmem : p ∈ letterPairs := List.mem_of_find?_eq_some hf
    have hall : letterPairs.all
        (fun q => isPySpace q.1 == isPySpace q.2) = true := by decide
    have h2 := List.all_eq_true.mp hall p hmem
    simp only [beq_iff_eq] at h2
    rw [h1, h2, hc]

theorem ratFloor_eq_floor (q : ℚ) : ratFloor q = ⌊q⌋ :=
  Rat.floor_def.symm

/-- `mkRat` (used below because `Rat.inv`, hence `/` on `ℚ`, is
`@[irreducible]` and would block kernel evaluation) agrees with division. -/
theorem mkRat_eq_cast_div (n : ℤ) (d : ℕ) : (mkRat n d : ℚ) = (n : ℚ) / (d : ℚ) := by
  rw [Rat.mkRat_eq_divInt, Rat.divInt_eq_div]
  norm_num

theorem mkRat_one_two : (mkRat 1 2 : ℚ) = 1 / 2 := by
  rw [mkRat_eq_cast_div]
  norm_num

theorem mkRat_ten_eight : (mkRat 10 8 : ℚ) = 10 / 8 := by
  rw [mkRat_eq_cast_div]
  norm_num

theorem mkRat_nonneg_of_nonneg (n : ℤ) (d : ℕ) (h : 0 ≤ n) : 0 ≤ (mkRat n d : ℚ) := by
  rw [mkRat_eq_cast_div]
  positivity

theorem comp_charUpper_charUpper : charUpper ∘ charUpper = charUpper :=
  funext charUpper_charUpper

theorem comp_charLower_charLower : charLower ∘ charLower = charLower :=
  funext charLower_charLower

theorem comp_charUpper_charLower : charUpper ∘ charLower = charUpper :=
  funext charUpper_charLower

/-- Both components of `wordsCore` contain no whitespace, and every
completed word is nonempty. -/
theorem wordsCore_clean (s : List Char) :
    (∀ w ∈ (wordsCore s).1, w ≠ [] ∧ ∀ c ∈ w, isPySpace c = false) ∧
    (∀ c ∈ (wordsCore s).2, isPySpace c = false) := by
  induction s with
  | nil => exact ⟨by simp [wordsCore], by simp [wordsCore]⟩
  | cons c cs ih =>
    unfold wordsCore
    by_cases hc : isPySpace c = true
    · simp only [hc, if_true]
      refine ⟨?_, by simp⟩
      intro w hw
      by_cases hcur : (wordsCore cs).2.isEmpty = true
      · simp only [hcur, if_true] at hw
        exact ih.1 w hw
      · simp only [hcur, Bool.false_eq_true, if_false] at hw
        rcases List.mem_cons.mp hw with rfl | hw
        · refine ⟨?_, ih.2⟩
          intro hnil
          rw [hnil] at hcur
          exact hcur rfl
        · exact ih.1 w hw
    · have hc' : isPySpace c = false := by simpa using hc
      simp only [hc', Bool.false_eq_true, if_false]
      refine ⟨ih.1, ?_⟩
      intro x hx
      rcases List.mem_cons.mp hx with rfl | hx
      · exact hc'
      · exact ih.2 x hx

/-- `wordsCore` of a whitespace-free list builds just one pending word. -/
theorem wordsCore_of_clean (w : List Char) (hcl : ∀ c ∈ w, isPySpace c = false) :
    wordsCore w = ([], w) := by
  induction w with
  | nil => rfl
  | cons c cs ih =>
    have hc : isPySpace c = false := hcl c (by simp)
    have ih' := ih (fun x hx => hcl x (by simp [hx]))
    unfold wordsCore
    rw [ih']
    simp [hc]

/-- `words` of a single clean word. -/
theorem words_clean_single (w : List Char) (hne : w ≠ [])
    (hcl : ∀ c ∈ w, isPySpace c = false) : words w = [w] := by
  have hemp : w.isEmpty = false := by
    cases w with
    | nil => exact absurd rfl hne
    | cons c cs => rfl
  unfold words
  rw [wordsCore_of_clean w hcl]
  simp [hemp]

theorem wordsCore_append_clean (w r : List Char)
    (hcl : ∀ c ∈ w, isPySpace c = false) :
    wordsCore (w ++ r) = ((wordsCore r).1, w ++ (wordsCore r).2) := by
  induction w with
  | nil => simp
  | cons c cs ih =>
    have hc : isPySpace c = false := hcl c (by simp)
    have ih' := ih (fun x hx => hcl x (by simp [hx]))
    rw [List.cons_append]
    have step : wordsCore (c :: (cs ++ r)) =
        (let p := wordsCore (cs ++ r);
          if isPySpace c = true then
            (if p.2.isEmpty = true then p.1 else p.2 :: p.1, [])
          else (p.1, c :: p.2)) := rfl
    rw [step, ih']
    simp [hc]

theorem wordsCore_space (t : List Char) : wordsCore (' ' :: t) = (words t, []) :=
  rfl

/-- `words` of a clean word, a space, and a remainder. -/
theorem words_clean_append (w t : List Char) (hne : w ≠ [])
    (hcl : ∀ c ∈ w, isPySpace c = false) :
    words (w ++ ' ' :: t) = w :: words t := by
  have h1 : wordsCore (w ++ ' ' :: t) = (words t, w) := by
    rw [wordsCore_append_clean w (' ' :: t) hcl, wordsCore_space]
    simp
  have hemp : w.isEmpty = false := by
    cases w with
    | nil => exact absurd rfl hne
    | cons c cs => rfl
  show (let p := wordsCore (w ++ ' ' :: t);
    if p.2.isEmpty = true then p.1 else p.2 :: p.1) = w :: words t
  rw [h1]
  simp [hemp]

/-- Every token produced by `words` is nonempty and whitespace-free. -/
theorem words_clean (s : List Char) :
    ∀ w ∈ words s, w ≠ [] ∧ ∀ c ∈ w, isPySpace c = false := by
  intro w hw
  unfold words at hw
  by_cases hcur : (wordsCore s).2.isEmpty = true
  · simp only [hcur, if_true] at hw
    exact (wordsCore_clean s).1 w hw
  · simp only [hcur, Bool.false_eq_true, if_false] at hw
    rcases List.mem_cons.mp hw with rfl | hw
    · refine ⟨?_, (wordsCore_clean s).2⟩
      intro hnil
      rw [hnil] at hcur
      exact hcur rfl
    · exact (wordsCore_clean s).1 w hw

/-- Splitting the single-space join of clean words recovers them. -/
theorem words_unwords (ws : List (List Char))
    (h : ∀ w ∈ ws, w ≠ [] ∧ ∀ c ∈ w, isPySpace c = false) :
    words (unwords ws) = ws := by
  induction ws with
  | nil => rfl
  | cons w ws ih =>
    cases ws with
    | nil =>
      have hw := h w (by simp)
      simpa [unwords] using words_clean_single w hw.1 hw.2
    | cons w2 rest =>
      have hw := h w (by simp)
      have : unwords (w :: w2 :: rest) = w ++ ' ' :: unwords (w2 :: rest) := rfl
      rw [this, words_clean_append w _ hw.1 hw.2, ih]
      intro x hx
      exact h x (by simp [hx])

/-- `normalizeTokenModel` keeps tokens nonempty and whitespace-free. -/
theorem normalizeTokenModel_clean (w : List Char) (hne : w ≠ [])
    (hcl : ∀ c ∈ w, isPySpace c = false) :
    normalizeTokenModel w ≠ [] ∧ ∀ c ∈ normalizeTokenModel w, isPySpace c = false := by
  unfold normalizeTokenModel
  split
  · refine ⟨by simpa using hne, ?_⟩
    intro c hc
    rcases List.mem_map.mp hc with ⟨a, ha, rfl⟩
    rw [isPySpace_charUpper]
    exact hcl a ha
  · refine ⟨by simpa using hne, ?_⟩
    intro c hc
    rcases List.mem_map.mp hc with ⟨a, ha, rfl⟩
    rw [isPySpace_charLower]
    exact hcl a ha

theorem normalizeTokenModel_idem (w : List Char) :
    normalizeTokenModel (normalizeTokenModel w) = normalizeTokenModel w := by
  by_cases h : (sqlKeywordsModel.any fun k => k.data == w.map charUpper) = true
  · have h1 : normalizeTokenModel w = w.map charUpper := by
      unfold normalizeTokenModel; rw [if_pos h]
    have hu : (w.map charUpper).map charUpper = w.map charUpper := by
      rw [List.map_map, comp_charUpper_charUpper]
    have h2 : normalizeTokenModel (w.map charUpper) = w.map charUpper := by
      unfold normalizeTokenModel; rw [hu, if_pos h]
    rw [h1, h2]
  · have h1 : normalizeTokenModel w = w.map charLower := by
      unfold normalizeTokenModel; rw [if_neg h]
    have hu : (w.map charLower).map charUpper = w.map charUpper := by
      rw [List.map_map, comp_charUpper_charLower]
    have h2 : normalizeTokenModel (w.map charLower) = w.map charLower := by
      unfold normalizeTokenModel; rw [hu, if_neg h, List.map_map, comp_charLower_charLower]
    rw [h1, h2]

/-! ## Arithmetic facts about the score aggregation -/

theorem roundHalfEvenQ_le {x : ℚ} {m : ℤ} (h : x ≤ (m : ℚ)) : roundHalfEvenQ x ≤ m := by
  unfold roundHalfEvenQ
  rw [ratFloor_eq_floor, mkRat_one_two]
  have hn : ⌊x⌋ ≤ m := by
    have := Int.floor_le_floor h
    rwa [Int.floor_intCast] at this
  have hfl : (⌊x⌋ : ℚ) ≤ x := Int.floor_le x
  split_ifs with h1 h2 h3
  · exact hn
  · have : (⌊x⌋ : ℚ) < (m : ℚ) := by linarith
    have : ⌊x⌋ < m := by exact_mod_cast this
    omega
  · exact hn
  · have hge : (1 : ℚ) / 2 ≤ x - (⌊x⌋ : ℚ) := le_of_not_lt h1
    have : (⌊x⌋ : ℚ) < (m : ℚ) := by linarith
    have : ⌊x⌋ < m := by exact_mod_cast this
    omega

theorem roundHalfEvenQ_nonneg {x : ℚ} (h : 0 ≤ x) : 0 ≤ roundHalfEvenQ x := by
  unfold roundHalfEvenQ
  rw [ratFloor_eq_floor, mkRat_one_two]
  have hn : 0 ≤ ⌊x⌋ := Int.floor_nonneg.mpr h
  split_ifs <;> omega

theorem pyRound1_le {q : ℚ} {m : ℤ} (h : 10 * q ≤ (m : ℚ)) : pyRound1 q ≤ (m : ℚ) / 10 := by
  unfold pyRound1
  rw [mkRat_eq_cast_div]
  have h1 : roundHalfEvenQ (10 * q) ≤ m := roundHalfEvenQ_le h
  have h2 : ((roundHalfEvenQ (10 * q) : ℤ) : ℚ) ≤ (m : ℚ) := by exact_mod_cast h1
  have h3 : ((10 : ℕ) : ℚ) = 10 := by norm_num
  rw [h3]
  linarith

theorem pyRound1_nonneg {q : ℚ} (h : 0 ≤ q) : 0 ≤ pyRound1 q := by
  unfold pyRound1
  have h1 : 0 ≤ roundHalfEvenQ (10 * q) := roundHalfEvenQ_nonneg (by linarith)
  exact mkRat_nonneg_of_nonneg _ _ h1

theorem evaluateCot_nonneg (cot ext gen exp : String) (ok : Bool) :
    0 ≤ evaluateCot cot ext gen exp ok := by
  unfold evaluateCot
  by_cases h : (cot == "") = true
  · simp [h]
  · simp only [h, if_false]
    refine le_min (by norm_num) ?_
    have hhalf : (0 : ℚ) ≤ mkRat 1 2 := by rw [mkRat_one_two]; norm_num
    have h1 : (0 : ℚ) ≤
        (if pyContains cot "<think>" && pyContains cot "<answer>" then (mkRat 1 2 : ℚ) else 0) := by
      split
      · exact hhalf
      · exact le_refl 0
    have h2 : (0 : ℚ) ≤ (mkRat 1 2 : ℚ) *
        mkRat (((["SELECT", "FROM", "WHERE", "JOIN"].filter (fun c =>
          pyContains (pyUpper gen) c && pyContains (pyLower cot) (pyLower c))).length : ℤ)) 4 :=
      mul_nonneg hhalf (mkRat_nonneg_of_nonneg _ _ (by positivity))
    have h3 : (0 : ℚ) ≤ (if ext != "" &&
        ((pySplitOn ext ';').any (fun k => pyContains cot k)) then (mkRat 1 2 : ℚ) else 0) := by
      split
      · exact hhalf
      · exact le_refl 0
    have h4 : (0 : ℚ) ≤ (if !ok && pyContains cot exp then (mkRat 1 2 : ℚ) else 0) := by
      split
      · exact hhalf
      · exact le_refl 0
    linarith

theorem evaluateCot_le_two (cot ext gen exp : String) (ok : Bool) :
    evaluateCot cot ext gen exp ok ≤ 2 := by
  unfold evaluateCot
  by_cases h : (cot == "") = true
  · simp [h]
  · simp only [h, if_false]
    exact min_le_left _ _

theorem pyRound1_le_one {v : ℚ} (h : v ≤ 1) : pyRound1 v ≤ 1 := by
  have := pyRound1_le (q := v) (m := 10) (by push_cast; linarith)
  norm_num at this
  exact this

theorem pyRound1_le_three {v : ℚ} (h : v ≤ 3) : pyRound1 v ≤ 3 := by
  have := pyRound1_le (q := v) (m := 30) (by push_cast; linarith)
  norm_num at this
  exact this

theorem pyRound1_le_ten {v : ℚ} (h : v ≤ 10) : pyRound1 v ≤ 10 := by
  have := pyRound1_le (q := v) (m := 100) (by push_cast; linarith)
  norm_num at this
  exact this

theorem c7_chain1 (r : ℚ) (hr : 0 ≤ r) :
    0 ≤ pyRound1 (10 ⊓ r ⊓ 3 ⊓ 1) ∧ pyRound1 (10 ⊓ r ⊓ 3 ⊓ 1) ≤ 10 ∧
    pyRound1 (10 ⊓ r ⊓ 3 ⊓ 1) ≤ 3 ∧ pyRound1 (10 ⊓ r ⊓ 3 ⊓ 1) ≤ 1 := by
  have h0 : (0 : ℚ) ≤ 10 ⊓ r ⊓ 3 ⊓ 1 :=
    le_inf (le_inf (le_inf (by norm_num) hr) (by norm_num)) (by norm_num)
  have h1 : (10 : ℚ) ⊓ r ⊓ 3 ⊓ 1 ≤ 1 := inf_le_right
  have h3 : (10 : ℚ) ⊓ r ⊓ 3 ⊓ 1 ≤ 3 := le_trans inf_le_left inf_le_right
  have h10 : (10 : ℚ) ⊓ r ⊓ 3 ⊓ 1 ≤ 10 :=
    le_trans inf_le_left (le_trans inf_le_left inf_le_left)
  exact ⟨pyRound1_nonneg h0, pyRound1_le_ten h10, pyRound1_le_three h3, pyRound1_le_one h1⟩

theorem c7_chain2 (r : ℚ) (hr : 0 ≤ r) :
    0 ≤ pyRound1 (10 ⊓ r ⊓ 3) ∧ pyRound1 (10 ⊓ r ⊓ 3) ≤ 10 ∧
    pyRound1 (10 ⊓ r ⊓ 3) ≤ 3 := by
  have h0 : (0 : ℚ) ≤ 10 ⊓ r ⊓ 3 := le_inf (le_inf (by norm_num) hr) (by norm_num)
  have h3 : (10 : ℚ) ⊓ r ⊓ 3 ≤ 3 := inf_le_right
  have h10 : (10 : ℚ) ⊓ r ⊓ 3 ≤ 10 := le_trans inf_le_left inf_le_left
  exact ⟨pyRound1_nonneg h0, pyRound1_le_ten h10, pyRound1_le_three h3⟩

theorem c7_chain3 (r : ℚ) (hr : 0 ≤ r) :
    0 ≤ pyRound1 (10 ⊓ r ⊓ 1) ∧ pyRound1 (10 ⊓ r ⊓ 1) ≤ 10 ∧
    pyRound1 (10 ⊓ r ⊓ 1) ≤ 1 := by
  have h0 : (0 : ℚ) ≤ 10 ⊓ r ⊓ 1 := le_inf (le_inf (by norm_num) hr) (by norm_num)
  have h1 : (10 : ℚ) ⊓ r ⊓ 1 ≤ 1 := inf_le_right
  have h10 : (10 : ℚ) ⊓ r ⊓ 1 ≤ 10 := le_trans inf_le_left inf_le_left
  exact ⟨pyRound1_nonneg h0, pyRound1_le_ten h10, pyRound1_le_one h1⟩

theorem c7_chain4 (r : ℚ) (hr : 0 ≤ r) :
    0 ≤ pyRound1 (10 ⊓ r) ∧ pyRound1 (10 ⊓ r) ≤ 10 := by
  have h0 : (0 : ℚ) ≤ 10 ⊓ r := le_inf (by norm_num) hr
  have h10 : (10 : ℚ) ⊓ r ≤ 10 := inf_le_left
  exact ⟨pyRound1_nonneg h0, pyRound1_le_ten h10⟩

/-! ## Claims -/

/-- C1 (counterexample): with A = a=1 and B = b=2, the structural WHERE
comparison of `_fuzzy_sql_match` judges WHERE A AND B unequal to
WHERE B AND A, and equal to WHERE A OR B — the opposite of the claim on
both counts. -/
theorem c1_counterexample :
    fuzzySqlMatch "SELECT c FROM t WHERE a=1 AND b=2"
      "SELECT c FROM t WHERE b=2 AND a=1" "Moderate" = false ∧
    fuzzySqlMatch "SELECT c FROM t WHERE a=1 AND b=2"
      "SELECT c FROM t WHERE a=1 OR b=2" "Moderate" = true :=
  ⟨by rfl, by rfl⟩

/-- C1 (amended): `_extract_conditions` splits the WHERE text on all
AND/OR separators into an ordered list of conditions, discarding which
connective joined them; the lists are compared positionally, so
WHERE A AND B is unequal to WHERE B AND A but equal to WHERE A OR B. -/
theorem c1_theorem :
    extractConditions "WHERE a=1 AND b=2" = ["a=1", "b=2"] ∧
    extractConditions "WHERE b=2 AND a=1" = ["b=2", "a=1"] ∧
    extractConditions "WHERE a=1 OR b=2" = ["a=1", "b=2"] ∧
    extractConditions "WHERE a=1 AND b=2" ≠ extractConditions "WHERE b=2 AND a=1" ∧
    extractConditions "WHERE a=1 AND b=2" = extractConditions "WHERE a=1 OR b=2" :=
  ⟨by rfl, by rfl, by rfl, by decide, by rfl⟩

/-- C2 (code bug): `_compare_execution_results`, on equal-length results with
no ORDER BY and Vague style, compares via Python `set` and therefore calls
the bags `[r1, r1, r2]` and `[r1, r2, r2]` equal although their duplicate
counts differ (their multisets are unequal, their sets of distinct rows
equal) — the spec mandates multiset comparison here and flags the set
comparison in the source as a defect. -/
theorem c2_theorem :
    compareExecutionResultsNL (some [[1], [1], [2]]) (some [[1], [2], [2]])
      "SELECT c FROM t" "Vague" = true ∧
    (([[1], [1], [2]] : List (List Int)) : Multiset (List Int)) ≠
      (([[1], [2], [2]] : List (List Int)) : Multiset (List Int)) ∧
    ([[1], [1], [2]] : List (List Int)).toFinset =
      ([[1], [2], [2]] : List (List Int)).toFinset :=
  ⟨by rfl, by decide, by decide⟩

/-- C3 (counterexample): on SELECT x.c1 FROM t x with schema t = [c1, c2],
synsql validation does not resolve the alias: table extraction yields the
literal text t x, which fails the table check; NL2SQL validation performs no
column check at all and accepts even a bogus qualified column. -/
theorem c3_counterexample :
    validateSqlExecutionSyn (fun _ => ["SELECT"]) "SELECT x.c1 FROM t x"
      (some [("t", ["c1", "c2"])]) "d" "Simple" =
      (false, "Table t x not in schema") ∧
    validateSqlExecutionNL (fun _ => ["SELECT"]) "SELECT x.c99 FROM t x"
      (some [("t", ["c1", "c2"])]) "d" "Simple" = (true, "") :=
  ⟨by rfl, by rfl⟩

/-- C3 (amended): the qualified-column loop of synsql validation treats the
qualifier literally as a table name, with no alias map: a qualifier that is
a schema key has its column checked against that table, and a qualifier
that is not (for example an alias) is skipped — validation fails open, not
closed. -/
theorem c3_theorem (schema : Schema) (q co : String) (rest : List String)
    (hdot : pyContains (q ++ "." ++ co) "." = true)
    (hsplit : pySplitOn (q ++ "." ++ co) '.' = [q, co]) :
    (List.lookup q schema = none →
      checkColumnsSyn schema ((q ++ "." ++ co) :: rest) = checkColumnsSyn schema rest) ∧
    (∀ cols, List.lookup q schema = some cols → cols.contains co = false →
      checkColumnsSyn schema ((q ++ "." ++ co) :: rest) =
        ColsCheck.notFound (q ++ "." ++ co)) := by
  constructor
  · intro hnone
    conv_lhs => unfold checkColumnsSyn
    simp [hdot, hsplit, hnone]
  · intro cols hsome hnc
    have hnc2 : co ∉ cols := by simpa using hnc
    conv_lhs => unfold checkColumnsSyn
    simp [hdot, hsplit, hsome, hnc2]

theorem c3_witness :
    checkColumnsSyn [("t", ["c1", "c2"])] ["x" ++ "." ++ "c1"] =
      checkColumnsSyn [("t", ["c1", "c2"])] [] ∧
    checkColumnsSyn [("t", ["c2"])] ["t" ++ "." ++ "c1"] =
      ColsCheck.notFound ("t" ++ "." ++ "c1") :=
  ⟨(c3_theorem [("t", ["c1", "c2"])] "x" "c1" [] (by decide) (by decide)).1 (by decide),
   (c3_theorem [("t", ["c2"])] "t" "c1" [] (by decide) (by decide)).2
     ["c2"] (by decide) (by decide)⟩

/-- C4 (counterexample): a referenced table differing from the schema key
only in letter case fails the existence check in both validators — the
dict-membership test is case-sensitive, not case-insensitive. -/
theorem c4_counterexample :
    validateSqlExecutionNL (fun _ => ["SELECT"]) "SELECT a FROM Employees"
      (some [("employees", ["a"])]) "db1" "Simple" =
      (false, "Table Employees not in schema for db_id db1") ∧
    validateSqlExecutionSyn (fun _ => ["SELECT"]) "SELECT a FROM Employees"
      (some [("employees", ["a"])]) "db1" "Simple" =
      (false, "Table Employees not in schema") :=
  ⟨by rfl, by rfl⟩

/-- C4 (amended): NL2SQL table validation compares extracted table names to
schema keys by exact, case-sensitive string equality; a missing table
short-circuits with a table-not-found reason naming it, and when every
extracted table matches exactly (and the complexity gate does not fire)
validation passes. -/
theorem c4_theorem (types : String → List String) (sql : String) (schema : Schema)
    (dbId cx : String) (htypes : types sql = ["SELECT"])
    (hne : schema.isEmpty = false) :
    (∀ t, firstMissingTable schema (extractTablesNL sql) = some t →
      validateSqlExecutionNL types sql (some schema) dbId cx =
        (false, "Table " ++ t ++ " not in schema for db_id " ++ dbId)) ∧
    (firstMissingTable schema (extractTablesNL sql) = none → (cx == "Complex") = false →
      validateSqlExecutionNL types sql (some schema) dbId cx = (true, "")) := by
  have hGuard : ((types sql).isEmpty || !((types sql).all (· == "SELECT"))) = false := by
    rw [htypes]
    rfl
  constructor
  · intro t ht
    unfold validateSqlExecutionNL
    dsimp only
    rw [hGuard]
    simp only [Bool.false_eq_true, if_false]
    rw [hne]
    simp only [Bool.false_eq_true, if_false]
    rw [ht]
  · intro hn hcx
    unfold validateSqlExecutionNL
    dsimp only
    rw [hGuard]
    simp only [Bool.false_eq_true, if_false]
    rw [hne]
    simp only [Bool.false_eq_true, if_false]
    rw [hn, hcx]
    simp

theorem c4_witness :
    validateSqlExecutionNL (fun _ => ["SELECT"]) "SELECT a FROM Employees"
      (some [("employees", ["a"])]) "db1" "Simple" =
      (false, "Table " ++ "Employees" ++ " not in schema for db_id " ++ "db1") ∧
    validateSqlExecutionNL (fun _ => ["SELECT"]) "SELECT a FROM employees"
      (some [("employees", ["a"])]) "db1" "Simple" = (true, "") :=
  ⟨(c4_theorem (fun _ => ["SELECT"]) "SELECT a FROM Employees" [("employees", ["a"])]
      "db1" "Simple" rfl rfl).1 "Employees" (by decide),
   (c4_theorem (fun _ => ["SELECT"]) "SELECT a FROM employees" [("employees", ["a"])]
      "db1" "Simple" rfl rfl).2 (by decide) (by decide)⟩

/-- C5 (counterexample): synsql validation accepts INSERT, UPDATE and DELETE
statement kinds rather than rejecting everything but SELECT and WITH. -/
theorem c5_counterexample :
    validateSqlExecutionSyn (fun _ => ["INSERT"]) "INSERT INTO t VALUES (1)"
      none "d" "Simple" = (true, "") ∧
    validateSqlExecutionSyn (fun _ => ["UPDATE"]) "UPDATE t SET a=1"
      none "d" "Simple" = (true, "") ∧
    validateSqlExecutionSyn (fun _ => ["DELETE"]) "DELETE FROM t"
      none "d" "Simple" = (true, "") :=
  ⟨by rfl, by rfl, by rfl⟩

/-- C5 (amended): the allowlists differ per variant and are broader than
SELECT plus WITH: synsql accepts the first statement when its kind is one of
SELECT, INSERT, UPDATE, DELETE, WITH and rejects any other kind with an
invalid-statement-type reason; NL2SQL rejects whenever any parsed statement
kind differs from SELECT. -/
theorem c5_theorem :
    (∀ (types : String → List String) (sql : String) (schemaOpt : Option Schema)
        (dbId cx ty : String) (restTypes : List String),
      types sql = ty :: restTypes → synsqlAllowedTypes.contains ty = false →
      validateSqlExecutionSyn types sql schemaOpt dbId cx =
        (false, "Invalid statement type: " ++ ty)) ∧
    (∀ (types : String → List String) (sql : String) (schemaOpt : Option Schema)
        (dbId cx : String),
      ((types sql).all (· == "SELECT")) = false →
      validateSqlExecutionNL types sql schemaOpt dbId cx =
        (false, "Only SELECT queries are supported")) := by
  constructor
  · intro types sql schemaOpt dbId cx ty restTypes hty hallow
    have hallow2 : ty ∉ synsqlAllowedTypes := by simpa using hallow
    unfold validateSqlExecutionSyn
    rw [hty]
    simp [hallow2]
  · intro types sql schemaOpt dbId cx hall
    unfold validateSqlExecutionNL
    dsimp only
    rw [hall]
    simp

theorem c5_witness :
    validateSqlExecutionSyn (fun _ => ["CREATE"]) "CREATE TABLE t (a INT)"
      none "d" "Simple" = (false, "Invalid statement type: " ++ "CREATE") ∧
    validateSqlExecutionNL (fun _ => ["INSERT"]) "INSERT INTO t VALUES (1)"
      none "d" "Simple" = (false, "Only SELECT queries are supported") :=
  ⟨c5_theorem.1 (fun _ => ["CREATE"]) "CREATE TABLE t (a INT)" none "d" "Simple"
      "CREATE" [] rfl (by decide),
   c5_theorem.2 (fun _ => ["INSERT"]) "INSERT INTO t VALUES (1)" none "d" "Simple"
      (by decide)⟩

/-- C6 (counterexample): two synsql inputs identical except for the CoT text,
both passing format and execution and both failing the semantic-equivalence
gate, receive different final scores (6.9 and 7.2): the CoT component is
still evaluated after the failed gate, so the score is not the contributions
of earlier stages plus a fixed penalty, and evaluation does not stop at the
failed gate. -/
theorem c6_counterexample :
    computeScoreSyn synEnv synSolutionA "SELECT c2 FROM t" "d" "Simple" "Imperative" ""
      (some [("t", ["c1", "c2"])]) = mkRat 69 10 ∧
    computeScoreSyn synEnv synSolutionB "SELECT c2 FROM t" "d" "Simple" "Imperative" ""
      (some [("t", ["c1", "c2"])]) = mkRat 72 10 ∧
    computeScoreSyn synEnv synSolutionA "SELECT c2 FROM t" "d" "Simple" "Imperative" ""
      (some [("t", ["c1", "c2"])]) ≠
      computeScoreSyn synEnv synSolutionB "SELECT c2 FROM t" "d" "Simple" "Imperative" ""
        (some [("t", ["c1", "c2"])]) ∧
    validateSqlResultSyn synEnv.sqlFormat "SELECT c1 FROM t" "SELECT c2 FROM t"
      "Simple" "Imperative" = false ∧
    (validateSqlExecutionSyn synEnv.stmtTypes "SELECT c1 FROM t"
      (some [("t", ["c1", "c2"])]) "d" "Simple").1 = true :=
  ⟨by decide, by decide, by decide, by decide, by decide⟩

/-- C6 (amended): only NL2SQL compute is a strictly sequential,
short-circuiting chain of gates — its value is exactly the gate chain with
penalties summing to -1 (format or extraction or execution failure), 0
(result failure) and 6 (all pass); in synsql compute only the structure gate
short-circuits (returning 0), all later components being evaluated and
combined with post-hoc caps. -/
theorem c6_theorem :
    (∀ (env : PyEnvNL) (sol exp dbId cx style : String) (schemaOpt : Option Schema),
      computeScoreNL env sol exp dbId cx style schemaOpt =
        (if !(validateFormatNL (env.jsonCot.getD sol)) then -1
         else if extractSqlNL (env.jsonCot.getD sol) == "" then -1
         else if !(validateSqlExecutionNL env.stmtTypes
             (extractSqlNL (env.jsonCot.getD sol)) schemaOpt dbId cx).1 then -1
         else if !(validateSqlResultNL env (extractSqlNL (env.jsonCot.getD sol))
             exp cx style) then 0
         else 6)) ∧
    (∀ (env : PyEnvSyn) (sol exp dbId cx style ext : String) (schemaOpt : Option Schema),
      (validateStructureSyn sol).1 = false →
      computeScoreSyn env sol exp dbId cx style ext schemaOpt = 0) := by
  constructor
  · intro env sol exp dbId cx style schemaOpt
    unfold computeScoreNL
    dsimp only
    split_ifs <;> omega
  · intro env sol exp dbId cx style ext schemaOpt h
    unfold computeScoreSyn
    rw [h]
    norm_num

theorem c6_witness :
    computeScoreSyn synEnv "no structured fields here" "x" "d" "Simple" "Vague" "" none = 0 :=
  c6_theorem.2 synEnv "no structured fields here" "x" "d" "Simple" "Vague" "" none (by decide)

/-- C7: for every input, the synsql final score is bounded, 0 ≤ score ≤ 10
(the components are summed and rescaled to the ceiling 10 before rounding),
and the post-hoc caps hold: when execution validation failed the score is at
most 3.0, and when format validation failed at most 1.0. -/
theorem c7_theorem (env : PyEnvSyn) (sol exp dbId cx style ext : String)
    (schemaOpt : Option Schema) :
    (0 ≤ computeScoreSyn env sol exp dbId cx style ext schemaOpt ∧
      computeScoreSyn env sol exp dbId cx style ext schemaOpt ≤ 10) ∧
    ((validateSqlExecutionSyn env.stmtTypes ((extractComponentsSyn sol).sql.getD "")
        schemaOpt dbId cx).1 = false →
      computeScoreSyn env sol exp dbId cx style ext schemaOpt ≤ 3) ∧
    ((validateFormatSyn (extractComponentsSyn sol)).1 = false →
      computeScoreSyn env sol exp dbId cx style ext schemaOpt ≤ 1) := by
  have hfac : (0 : ℚ) ≤ mkRat 10 8 := mkRat_nonneg_of_nonneg 10 8 (by norm_num)
  unfold computeScoreSyn
  cases hs : (validateStructureSyn sol).1 with
  | false =>
    simp only [hs, Bool.not_false, if_true]
    norm_num
  | true =>
    simp only [hs, Bool.not_true, Bool.false_eq_true, if_false, if_true]
    have hcot0 : (0 : ℚ) ≤ evaluateCot ((extractComponentsSyn sol).cot.getD "") ext
        ((extractComponentsSyn sol).sql.getD "") exp (false && decide ((0:ℚ) < 0)) :=
      evaluateCot_nonneg _ _ _ _ _
    cases he : (validateSqlExecutionSyn env.stmtTypes
        ((extractComponentsSyn sol).sql.getD "") schemaOpt dbId cx).1 with
    | false =>
      cases hf : (validateFormatSyn (extractComponentsSyn sol)).1 with
      | false =>
        simp only [he, hf, Bool.not_false, if_true, Bool.false_eq_true, if_false]
        have h := c7_chain1 ((1 + 0 + 0 + 0 +
          evaluateCot ((extractComponentsSyn sol).cot.getD "") ext
            ((extractComponentsSyn sol).sql.getD "") exp
            (false && decide ((0:ℚ) < 0))) * mkRat 10 8)
          (mul_nonneg (by linarith) hfac)
        exact ⟨⟨h.1, h.2.1⟩, fun _ => h.2.2.1, fun _ => h.2.2.2⟩
      | true =>
        simp only [he, hf, Bool.not_false, Bool.not_true, if_true, Bool.false_eq_true,
          if_false]
        have h := c7_chain2 ((1 + 1 + 0 + 0 +
          evaluateCot ((extractComponentsSyn sol).cot.getD "") ext
            ((extractComponentsSyn sol).sql.getD "") exp
            (false && decide ((0:ℚ) < 0))) * mkRat 10 8)
          (mul_nonneg (by linarith) hfac)
        exact ⟨⟨h.1, h.2.1⟩, fun _ => h.2.2, fun hff => absurd hff (by simp)⟩
    | true =>
      cases hr : validateSqlResultSyn env.sqlFormat ((extractComponentsSyn sol).sql.getD "")
          exp cx style with
      | false =>
        cases hf : (validateFormatSyn (extractComponentsSyn sol)).1 with
        | false =>
          simp only [he, hf, hr, Bool.not_false, Bool.not_true, if_true,
            Bool.false_eq_true, if_false]
          have h := c7_chain3 ((1 + 0 + 3 + 0 +
            evaluateCot ((extractComponentsSyn sol).cot.getD "") ext
              ((extractComponentsSyn sol).sql.getD "") exp
              (true && decide ((0:ℚ) < 0))) * mkRat 10 8)
            (mul_nonneg (by
              have := evaluateCot_nonneg ((extractComponentsSyn sol).cot.getD "") ext
                ((extractComponentsSyn sol).sql.getD "") exp (true && decide ((0:ℚ) < 0))
              linarith) hfac)
          exact ⟨⟨h.1, h.2.1⟩, fun hee => absurd hee (by simp), fun _ => h.2.2⟩
        | true =>
          simp only [he, hf, hr, Bool.not_false, Bool.not_true, if_true,
            Bool.false_eq_true, if_false]
          have h := c7_chain4 ((1 + 1 + 3 + 0 +
            evaluateCot ((extractComponentsSyn sol).cot.getD "") ext
              ((extractComponentsSyn sol).sql.getD "") exp
              (true && decide ((0:ℚ) < 0))) * mkRat 10 8)
            (mul_nonneg (by
              have := evaluateCot_nonneg ((extractComponentsSyn sol).cot.getD "") ext
                ((extractComponentsSyn sol).sql.getD "") exp (true && decide ((0:ℚ) < 0))
              linarith) hfac)
          exact ⟨⟨h.1, h.2⟩, fun hee => absurd hee (by simp), fun hff => absurd hff (by simp)⟩
      | true =>
        cases hf : (validateFormatSyn (extractComponentsSyn sol)).1 with
        | false =>
          simp only [he, hf, hr, Bool.not_false, Bool.not_true, if_true,
            Bool.false_eq_true, if_false]
          have h := c7_chain3 ((1 + 0 + 3 + 3 +
            evaluateCot ((extractComponentsSyn sol).cot.getD "") ext
              ((extractComponentsSyn sol).sql.getD "") exp
              (true && decide ((0:ℚ) < 3))) * mkRat 10 8)
            (mul_nonneg (by
              have := evaluateCot_nonneg ((extractComponentsSyn sol).cot.getD "") ext
                ((extractComponentsSyn sol).sql.getD "") exp (true && decide ((0:ℚ) < 3))
              linarith) hfac)
          exact ⟨⟨h.1, h.2.1⟩, fun hee => absurd hee (by simp), fun _ => h.2.2⟩
        | true =>
          simp only [he, hf, hr, Bool.not_false, Bool.not_true, if_true,
            Bool.false_eq_true, if_false]
          have h := c7_chain4 ((1 + 1 + 3 + 3 +
            evaluateCot ((extractComponentsSyn sol).cot.getD "") ext
              ((extractComponentsSyn sol).sql.getD "") exp
              (true && decide ((0:ℚ) < 3))) * mkRat 10 8)
            (mul_nonneg (by
              have := evaluateCot_nonneg ((extractComponentsSyn sol).cot.getD "") ext
                ((extractComponentsSyn sol).sql.getD "") exp (true && decide ((0:ℚ) < 3))
              linarith) hfac)
          exact ⟨⟨h.1, h.2⟩, fun hee => absurd hee (by simp), fun hff => absurd hff (by simp)⟩

theorem c7_witness :
    0 ≤ computeScoreSyn synEnv synSolutionC "SELECT a FROM t" "d" "Simple" "Vague" ""
      (some [("t", ["a"])]) ∧
    computeScoreSyn synEnv synSolutionC "SELECT a FROM t" "d" "Simple" "Vague" ""
      (some [("t", ["a"])]) ≤ 10 ∧
    computeScoreSyn synEnv synSolutionC "SELECT a FROM t" "d" "Simple" "Vague" ""
      (some [("t", ["a"])]) ≤ 3 ∧
    computeScoreSyn synEnv synSolutionC "SELECT a FROM t" "d" "Simple" "Vague" ""
      (some [("t", ["a"])]) ≤ 1 :=
  ⟨(c7_theorem synEnv synSolutionC "SELECT a FROM t" "d" "Simple" "Vague" ""
      (some [("t", ["a"])])).1.1,
   (c7_theorem synEnv synSolutionC "SELECT a FROM t" "d" "Simple" "Vague" ""
      (some [("t", ["a"])])).1.2,
   (c7_theorem synEnv synSolutionC "SELECT a FROM t" "d" "Simple" "Vague" ""
      (some [("t", ["a"])])).2.1 (by decide),
   (c7_theorem synEnv synSolutionC "SELECT a FROM t" "d" "Simple" "Vague" ""
      (some [("t", ["a"])])).2.2 (by decide)⟩

/-- C8: both modelled normalization passes are idempotent — applying the
modelled formatter twice gives the same string as applying it once, for
every input string. -/
theorem c8_theorem (s : String) :
    normalizeSqlModelNL (normalizeSqlModelNL s) = normalizeSqlModelNL s ∧
    normalizeSqlModelSyn (normalizeSqlModelSyn s) = normalizeSqlModelSyn s := by
  constructor
  · unfold normalizeSqlModelNL
    have hd : ((unwords ((words s.data).map normalizeTokenModel)).asString).data =
        unwords ((words s.data).map normalizeTokenModel) := rfl
    rw [hd]
    have hclean : ∀ w ∈ (words s.data).map normalizeTokenModel,
        w ≠ [] ∧ ∀ c ∈ w, isPySpace c = false := by
      intro w hw
      rcases List.mem_map.mp hw with ⟨a, ha, rfl⟩
      have h := words_clean s.data a ha
      exact normalizeTokenModel_clean a h.1 h.2
    rw [words_unwords _ hclean, List.map_map]
    have hmap : ((words s.data).map (normalizeTokenModel ∘ normalizeTokenModel)) =
        (words s.data).map normalizeTokenModel :=
      List.map_congr_left (fun a _ => normalizeTokenModel_idem a)
    rw [hmap]
  · unfold normalizeSqlModelSyn
    have hd : ((unwords (words s.data)).asString).data = unwords (words s.data) := rfl
    rw [hd]
    rw [words_unwords _ (words_clean s.data)]

/-- C9: NL2SQL compute returns exactly one of the three values -1, 0 and 6,
for every input and every oracle outcome. -/
theorem c9_theorem (env : PyEnvNL) (sol exp dbId cx style : String)
    (schemaOpt : Option Schema) :
    computeScoreNL env sol exp dbId cx style schemaOpt = -1 ∨
    computeScoreNL env sol exp dbId cx style schemaOpt = 0 ∨
    computeScoreNL env sol exp dbId cx style schemaOpt = 6 := by
  unfold computeScoreNL
  dsimp only
  split_ifs <;> omega

/-- C10: the synsql structure gate requires no JSON parsing — any string in
which the four field regexes match (with nonempty captured values) passes
`_validate_structure`, and all four fields extract successfully, whether or
not the string is valid JSON. -/
theorem c10_theorem (r : String)
    (hq : (extractJsonField r "question").isSome = true)
    (hc : (extractJsonField r "cot").isSome = true)
    (hs : (extractJsonField r "sql").isSome = true)
    (hd : (extractJsonField r "db_id").isSome = true) :
    validateStructureSyn r = (true, "") ∧
    (extractComponentsSyn r).question.isSome = true ∧
    (extractComponentsSyn r).cot.isSome = true ∧
    (extractComponentsSyn r).sql.isSome = true ∧
    (extractComponentsSyn r).dbId.isSome = true := by
  have toNone : ∀ (o : Option String), o.isSome = true → o.isNone = false := by
    intro o h
    cases o with
    | none => simp at h
    | some v => rfl
  refine ⟨?_, hq, hc, hs, hd⟩
  unfold validateStructureSyn
  rw [toNone _ hq, toNone _ hc, toNone _ hs, toNone _ hd]
  simp

theorem c10_witness :
    validateStructureSyn c10Response = (true, "") ∧
    (extractComponentsSyn c10Response).question.isSome = true ∧
    (extractComponentsSyn c10Response).cot.isSome = true ∧
    (extractComponentsSyn c10Response).sql.isSome = true ∧
    (extractComponentsSyn c10Response).dbId.isSome = true :=
  c10_theorem c10Response (by decide) (by decide) (by decide) (by decide)
